import Mathlib

/-!
Verification of the Gantt-chart generation pipeline (src/app.py).

The embedding models the data pipeline of `process_dataframe` and
`create_gantt_chart` plus the module-level stats and error handling.
Dates are modelled at day granularity as integers (the only date
arithmetic in the program is whole-day `pd.Timedelta` padding and the
`.days` span); the outcome of `pd.to_datetime` on a raw cell is an
`Option Int` (`none` = unparsable).  Pandas dataframes become lists of
task records carrying the 1-based re-assigned index as `id`.
-/

namespace Gantt

/-- One raw input row, after column validation: the fields
`Name, Start_Date, Finish_Date, Duration, Outline_Level, Predecessors, Not appear`.
`startDateRaw` / `finishDateRaw` hold the outcome of `pd.to_datetime` on the
cell (`none` when the cell is unparsable); `predecessors` is `none` when the
cell is NaN (`pd.isna`). -/
structure RawRow where
  name : String
  startDateRaw : Option Int
  finishDateRaw : Option Int
  duration : String
  outlineLevel : Int
  predecessors : Option String
  notAppear : Bool
deriving DecidableEq

/-- One processed task row of the dataframe after `process_dataframe`'s
re-indexing and conversions: `id` is the 1-based position assigned by
`df.index = range(1, len(df) + 1)`. -/
structure Task where
  id : Nat
  name : String
  start : Int
  finish : Int
  durationDays : Nat
  outlineLevel : Int
  predecessors : Option String
  notAppear : Bool
deriving DecidableEq

/-- Digits-to-number accumulation for a run of decimal digit characters. -/
def digitsToNat (cs : List Char) : Nat :=
  cs.foldl (fun acc c => acc * 10 + (c.toNat - '0'.toNat)) 0

/-- The first maximal run of decimal digits in a character list, `none` when
there is no digit. -/
def firstDigitRun : List Char → Option (List Char)
  | [] => none
  | c :: cs =>
      if c.isDigit then some (c :: cs.takeWhile (fun d => d.isDigit))
      else firstDigitRun cs

/-- Models the pandas digit extraction (str.extract of the first digit run)
followed by int conversion on one
cell: the first integer (maximal digit run) found in the string, `none` when
the string contains no digit (in which case `astype(int)` raises). -/
def extractFirstNat (s : String) : Option Nat :=
  (firstDigitRun s.toList).map digitsToNat

/-- Whether a character list is a nonempty all-digit run. -/
def digitsOnly (cs : List Char) : Bool :=
  !cs.isEmpty && cs.all Char.isDigit

/-- Python `str.split(',')` at character level: the comma-separated pieces,
with `[]` on the empty input becoming one empty piece, as in Python. -/
def splitOnComma : List Char → List (List Char)
  | [] => [[]]
  | c :: cs =>
      if c = ',' then [] :: splitOnComma cs
      else
        match splitOnComma cs with
        | [] => [[c]]
        | t :: ts => (c :: t) :: ts

/-- Python `str.strip()`: drop whitespace from both ends. -/
def trimChars (cs : List Char) : List Char :=
  ((cs.dropWhile Char.isWhitespace).reverse.dropWhile Char.isWhitespace).reverse

/-- Python `int(tok)` on an already-stripped token: an optional sign followed
by a nonempty digit run; `none` models the `ValueError`. -/
def parseIntToken (tok : List Char) : Option Int :=
  match tok with
  | '+' :: cs => if digitsOnly cs then some (Int.ofNat (digitsToNat cs)) else none
  | '-' :: cs => if digitsOnly cs then some (-(Int.ofNat (digitsToNat cs))) else none
  | cs => if digitsOnly cs then some (Int.ofNat (digitsToNat cs)) else none

/-- All tokens parsed as integers, `none` as soon as any token fails — the
list comprehension `[int(p.strip()) for p in str(s).split(',')]` raising
`ValueError` on the first bad token. -/
def allIntTokens : List (List Char) → Option (List Int)
  | [] => some []
  | t :: ts =>
      match parseIntToken t, allIntTokens ts with
      | some v, some vs => some (v :: vs)
      | _, _ => none

/-- Embeds `parse_predecessors` (src/app.py lines 51-58): NaN gives `[]`; otherwise
the cell is split on commas, each token stripped and parsed as an integer,
and any `ValueError` makes the whole list collapse to `[]`. -/
def parse_predecessors (s : Option String) : List Int :=
  match s with
  | none => []
  | some str =>
      match allIntTokens ((splitOnComma str.toList).map trimChars) with
      | some vs => vs
      | none => []

/-- The collapse scan of `process_dataframe` (src/app.py lines 67-84): a
single forward pass over all rows carrying `is_collapsing` and
`parent_outline_level`, returning `indices_to_hide` in scan order.  A row
with `Not appear == True` restarts the collapse at its own level and is
itself never added; while collapsing, a strictly deeper row is hidden and a
row at or above the parent level ends the collapse. -/
def collapseScan : List Task → Bool → Int → List Nat
  | [], _, _ => []
  | r :: rs, collapsing, parentLevel =>
      if r.notAppear then
        collapseScan rs true r.outlineLevel
      else if collapsing then
        if r.outlineLevel > parentLevel then
          r.id :: collapseScan rs true parentLevel
        else
          collapseScan rs false (-1)
      else
        collapseScan rs false parentLevel

/-- Computes `indices_to_hide` from the whole dataframe with the initial
state `is_collapsing = False`, `parent_outline_level = -1`. -/
def indicesToHide (df : List Task) : List Nat :=
  collapseScan df false (-1)

/-- Embeds `selected_outline_levels = [1, 2, 3, 4]` (src/app.py line 63). -/
def selectedOutlineLevels : List Int := [1, 2, 3, 4]

/-- The visibility part of `process_dataframe` (src/app.py lines 46-86):
split into milestones (`Duration_days == 0`) and regular rows, filter both
by allowed outline levels, then drop the rows whose index is in
`indices_to_hide`.  Returns `(df_regular, df_milestones)`. -/
def processVisible (df : List Task) : List Task × List Task :=
  let dfMilestones0 := df.filter (fun t => t.durationDays == 0)
  let dfRegular0 := df.filter (fun t => t.durationDays != 0)
  let dfRegular1 := dfRegular0.filter (fun t => selectedOutlineLevels.contains t.outlineLevel)
  let dfMilestones1 := dfMilestones0.filter (fun t => selectedOutlineLevels.contains t.outlineLevel)
  let hide := indicesToHide df
  (dfRegular1.filter (fun t => !(hide.contains t.id)),
   dfMilestones1.filter (fun t => !(hide.contains t.id)))

/-- Spec-level visibility: allowed outline level AND not suppressed by the
collapse scan. -/
def VisibleTask (df : List Task) (t : Task) : Prop :=
  t.outlineLevel ∈ selectedOutlineLevels ∧ t.id ∉ indicesToHide df

instance (df : List Task) (t : Task) : Decidable (VisibleTask df t) := by
  unfold VisibleTask; infer_instance

/-- Python `'  ' * n`: the two-space indent repeated `n` times. -/
def repeatTwoSpace : Nat → String
  | 0 => ""
  | n + 1 => "  " ++ repeatTwoSpace n

/-- Embeds the `Y_Label` computation (src/app.py lines 89-94): the two-space
indent repeated (Outline_Level - 1) times, then the name;
Python string repetition with a non-positive count yields the empty string,
hence `Int.toNat`. -/
def yLabel (t : Task) : String :=
  repeatTwoSpace (t.outlineLevel - 1).toNat ++ t.name

/-- Insert a task into a list sorted by `id`. -/
def insertById (t : Task) : List Task → List Task
  | [] => [t]
  | u :: us => if t.id ≤ u.id then t :: u :: us else u :: insertById t us

/-- Models `sort_index()` on a concatenated dataframe: sort by the (unique) original
index. -/
def sortById : List Task → List Task
  | [] => []
  | t :: ts => insertById t (sortById ts)

/-- Models `drop_duplicates()` keeping first occurrences, with an accumulator of
already-seen labels. -/
def dedupFirstAux (seen : List String) : List String → List String
  | [] => []
  | s :: ss =>
      if s ∈ seen then dedupFirstAux seen ss
      else s :: dedupFirstAux (s :: seen) ss

/-- Models `drop_duplicates()` keeping first occurrences. -/
def dedupFirst (ls : List String) : List String :=
  dedupFirstAux [] ls

/-- Embeds `sorted_y_labels` (src/app.py lines 100-101): concatenate the visible
regular and milestone rows, restore original index order, and keep the
distinct labels in first-appearance order. -/
def sortedYLabels (dfR dfM : List Task) : List String :=
  dedupFirst ((sortById (dfR ++ dfM)).map yLabel)

/-- Embeds `y_label_to_pos` (src/app.py line 102): the 0-based position of a label
in `sorted_y_labels`. -/
def yLabelToPos (labels : List String) (label : String) : Nat :=
  labels.indexOf label

/-- Bar colour tiers by outline level (src/app.py lines 109-115). -/
def barColor (t : Task) : String :=
  if t.outlineLevel == 1 then "black"
  else if t.outlineLevel == 2 then "dimgray"
  else if t.outlineLevel == 3 then "darkgray"
  else "steelblue"

/-- One bar rectangle: `x0 = Start_Date`, `x1 = Finish_Date`, vertical centre
at `pos` (the rectangle spans `pos ± 0.2`). -/
structure BarRect where
  taskId : Nat
  x0 : Int
  x1 : Int
  pos : Nat
  color : String
deriving DecidableEq

/-- The bar rectangles (src/app.py lines 107-131): one per visible regular
row. -/
def barsOf (dfR : List Task) (labels : List String) : List BarRect :=
  dfR.map (fun t =>
    { taskId := t.id, x0 := t.start, x1 := t.finish
      pos := yLabelToPos labels (yLabel t), color := barColor t })

/-- One milestone diamond marker at `(Finish_Date, pos)`. -/
structure Marker where
  taskId : Nat
  x : Int
  pos : Nat
deriving DecidableEq

/-- The milestone marker trace (src/app.py lines 143-164): emitted only when
`len(df_milestones) > 0`, one marker per visible milestone at its finish
date and label position. -/
def markersOf (dfM : List Task) (labels : List String) : Option (List Marker) :=
  if dfM.length > 0 then
    some (dfM.map (fun t =>
      { taskId := t.id, x := t.finish, pos := yLabelToPos labels (yLabel t) }))
  else none

/-- One dependency connector from `(predecessor.finish, predecessor.pos)` to
`(dependent.start, dependent.pos)`. -/
structure Connector where
  fromId : Nat
  toId : Nat
  x0 : Int
  y0 : Nat
  x1 : Int
  y1 : Nat
deriving DecidableEq

/-- Models the membership test on a dataframe index followed by a loc
lookup: find the row
with the given index. -/
def lookupById (ts : List Task) (i : Int) : Option Task :=
  ts.find? (fun t => (t.id : Int) == i)

/-- The connectors contributed by one visible regular row (src/app.py lines
167-192): for each parsed predecessor id, look it up among visible regular
rows, then among visible milestones; emit a connector when found, silently
skip otherwise. -/
def connectorsFor (dfR dfM : List Task) (labels : List String) (row : Task) : List Connector :=
  (parse_predecessors row.predecessors).filterMap (fun predIdx =>
    match lookupById dfR predIdx with
    | some p =>
        some { fromId := p.id, toId := row.id, x0 := p.finish
               y0 := yLabelToPos labels (yLabel p), x1 := row.start
               y1 := yLabelToPos labels (yLabel row) }
    | none =>
        match lookupById dfM predIdx with
        | some p =>
            some { fromId := p.id, toId := row.id, x0 := p.finish
                   y0 := yLabelToPos labels (yLabel p), x1 := row.start
                   y1 := yLabelToPos labels (yLabel row) }
        | none => none)

/-- All dependency connectors: the loop over `df_regular.iterrows()`. -/
def connectorsOf (dfR dfM : List Task) (labels : List String) : List Connector :=
  dfR.flatMap (connectorsFor dfR dfM labels)

/-- Minimum of a list of integers, `none` on the empty list (`Series.min()`
of an empty series is NaN). -/
def listMinInt : List Int → Option Int
  | [] => none
  | x :: xs =>
      match listMinInt xs with
      | none => some x
      | some m => some (min x m)

/-- Maximum of a list of integers, `none` on the empty list. -/
def listMaxInt : List Int → Option Int
  | [] => none
  | x :: xs =>
      match listMaxInt xs with
      | none => some x
      | some m => some (max x m)

/-- Embeds `xaxis_range` (src/app.py lines 194-208):
`[df['Start_Date'].min() - 5 days, df['Finish_Date'].max() + 30 days]`,
computed over the FULL dataframe `df`, hidden rows included. -/
def xAxisRange (df : List Task) : Option (Int × Int) :=
  match listMinInt (df.map Task.start), listMaxInt (df.map Task.finish) with
  | some a, some b => some (a - 5, b + 30)
  | _, _ => none

/-- The chart model produced by `create_gantt_chart`: bar rectangles, the
optional milestone marker trace, dependency connectors, the x-axis range and
the ordered y-axis labels. -/
structure ChartGeometry where
  bars : List BarRect
  markerTrace : Option (List Marker)
  connectors : List Connector
  xRange : Option (Int × Int)
  yLabels : List String
deriving DecidableEq

/-- Embeds `create_gantt_chart(df, df_regular, df_milestones)` (src/app.py lines
98-222), restricted to the geometry it derives. -/
def create_gantt_chart (df dfR dfM : List Task) : ChartGeometry :=
  let labels := sortedYLabels dfR dfM
  { bars := barsOf dfR labels
    markerTrace := markersOf dfM labels
    connectors := connectorsOf dfR dfM labels
    xRange := xAxisRange df
    yLabels := labels }

/-- The single categorised fatal error surfaced by the module-level
`try/except` (src/app.py lines 271-274). -/
inductive FatalError where
  | parseError : String → FatalError
deriving DecidableEq

/-- Normalisation of one raw row at 1-based position `i`: both dates must
have parsed and the duration must contain a digit run; any failure is fatal. -/
def normalizeRow (i : Nat) (r : RawRow) : Option Task := do
  let s ← r.startDateRaw
  let f ← r.finishDateRaw
  let d ← extractFirstNat r.duration
  pure { id := i, name := r.name, start := s, finish := f, durationDays := d
         outlineLevel := r.outlineLevel, predecessors := r.predecessors
         notAppear := r.notAppear }

/-- Normalise a row list assigning consecutive 1-based ids starting at `i`;
`none` as soon as any row fails. -/
def normalizeRows : Nat → List RawRow → Option (List Task)
  | _, [] => some []
  | i, r :: rs =>
      match normalizeRow i r, normalizeRows (i + 1) rs with
      | some t, some ts => some (t :: ts)
      | _, _ => none

/-- The normalisation stage of `process_dataframe` (src/app.py lines 36-44)
under the module-level exception handler: `pd.to_datetime` on the two date
columns and the digit extraction on `Duration` either all succeed, or the
whole run aborts with a fatal error and no chart is produced. -/
def normalize (rows : List RawRow) : Except FatalError (List Task) :=
  match normalizeRows 1 rows with
  | some ts => Except.ok ts
  | none => Except.error (FatalError.parseError "Start_Date/Finish_Date/Duration")

/-- The three aggregate stats displayed after chart creation (src/app.py
lines 250-257): `len(df_regular)`, `len(df_milestones)`, and
`(df['Finish_Date'].max() - df['Start_Date'].min()).days` over the full
dataframe. -/
structure Stats where
  regularCount : Nat
  milestoneCount : Nat
  totalDurationDays : Option Int
deriving DecidableEq

/-- Computes the stats from the full dataframe and the two visible subsets. -/
def statsOf (df dfR dfM : List Task) : Stats :=
  { regularCount := dfR.length
    milestoneCount := dfM.length
    totalDurationDays :=
      match listMaxInt (df.map Task.finish), listMinInt (df.map Task.start) with
      | some b, some a => some (b - a)
      | _, _ => none }

/-- The whole run on an uploaded, column-validated sheet: normalise, compute
visibility, build the chart geometry and the stats.  A fatal error aborts
with no partial geometry. -/
def runPipeline (rows : List RawRow) : Except FatalError (ChartGeometry × Stats) :=
  match normalize rows with
  | Except.error e => Except.error e
  | Except.ok df =>
      let p := processVisible df
      Except.ok (create_gantt_chart df p.1 p.2, statsOf df p.1 p.2)

/-! ### Concrete example inputs used in the theorems below -/

/-- Builds a task record from the fields the examples vary. -/
def mkTask (id : Nat) (nm : String) (lvl : Int) (na : Bool) (dur : Nat)
    (s f : Int) (preds : Option String) : Task :=
  { id := id, name := nm, start := s, finish := f, durationDays := dur
    outlineLevel := lvl, predecessors := preds, notAppear := na }

/-- Outline levels `[1,2,3,2,1]` with the level-2 row 2 marked
`hideDescendants`. -/
def c1Rows : List Task :=
  [ mkTask 1 "T1" 1 false 1 0 1 none
  , mkTask 2 "T2" 2 true 1 0 1 none
  , mkTask 3 "T3" 3 false 1 0 1 none
  , mkTask 4 "T4" 2 false 1 0 1 none
  , mkTask 5 "T5" 1 false 1 0 1 none ]

/-- A marked row at column 0 of the scan. -/
def c1w : Task := mkTask 8 "V" 2 true 1 0 1 none

/-- A `hideDescendants` row (id 3, level 3) occurring inside the collapse
span opened by row 1 (level 1): it stays visible and resets the parent
level, so the level-2 row 5 ends the collapse and is visible again. -/
def c10Rows : List Task :=
  [ mkTask 1 "T1" 1 true 1 0 1 none
  , mkTask 2 "T2" 2 false 1 0 1 none
  , mkTask 3 "T3" 3 true 1 0 1 none
  , mkTask 4 "T4" 4 false 1 0 1 none
  , mkTask 5 "T5" 2 false 1 0 1 none ]

/-- A marked row scanned inside an active collapse. -/
def c10w : Task := mkTask 9 "W" 2 true 1 0 1 none

/-- Row 2 (start 0, finish 60) is hidden by row 1's collapse, so the visible
tasks span `[10, 20]` while the full dataframe spans `[0, 60]`. -/
def c2Cex : List Task :=
  [ mkTask 1 "T1" 1 true 5 10 20 none
  , mkTask 2 "T2" 2 false 10 0 60 none ]

/-- All rows visible, spanning day 0 (2024-01-01) to day 60 (2024-03-01). -/
def c2Ex : List Task :=
  [ mkTask 1 "T1" 1 false 10 0 30 none
  , mkTask 2 "T2" 1 false 10 20 60 none ]

/-- Row 3 references predecessor 99 (nonexistent) and 2 (hidden by row 1's
collapse): both edges must be dropped silently. -/
def c3Cex : List Task :=
  [ mkTask 1 "T1" 1 true 3 0 5 none
  , mkTask 2 "T2" 2 false 3 0 5 none
  , mkTask 3 "T3" 1 false 3 6 9 (some "99, 2") ]

/-- Two visible regular tasks with one resolvable dependency 1 → 2. -/
def c3wRows : List Task :=
  [ mkTask 1 "A" 1 false 3 0 5 none
  , mkTask 2 "B" 1 false 3 6 9 (some "1") ]

/-- The connector `create_gantt_chart` emits for `c3wRows`. -/
def c3wConn : Connector :=
  { fromId := 1, toId := 2, x0 := 5, y0 := 0, x1 := 6, y1 := 1 }

/-- Rows 1 and 2 share the label `"A"`; row 3 is a milestone labelled `"B"`. -/
def c6Rows : List Task :=
  [ mkTask 1 "A" 1 false 1 0 1 none
  , mkTask 2 "A" 1 false 1 2 3 none
  , mkTask 3 "B" 1 false 0 4 4 none ]

/-- Three visible regular tasks, one visible milestone, and a hidden row 2
whose finish (day 200) dominates every visible finish. -/
def c7Rows : List Task :=
  [ mkTask 1 "T1" 1 true 5 0 10 none
  , mkTask 2 "T2" 2 false 5 0 200 none
  , mkTask 3 "T3" 1 false 5 5 20 none
  , mkTask 4 "T4" 1 false 5 10 30 none
  , mkTask 5 "M5" 1 false 0 40 40 none ]

/-- A raw row whose `Duration` cell contains no digit. -/
def c8Bad : RawRow :=
  { name := "X", startDateRaw := some 0, finishDateRaw := some 3
    duration := "soon", outlineLevel := 1, predecessors := none
    notAppear := false }

/-- A raw sheet whose single row has `Finish_Date` (day 20) before
`Start_Date` (day 50). -/
def c9Rows : List RawRow :=
  [ { name := "X", startDateRaw := some 50, finishDateRaw := some 20
      duration := "7 days", outlineLevel := 1, predecessors := none
      notAppear := false } ]

/-- The processed task of `c9Rows`: id 1, start day 50, finish day 20. -/
def c9Task : Task := mkTask 1 "X" 1 false 7 50 20 none

/-! ### Helper lemmas -/

/-- Every index the collapse scan hides is the id of some scanned row. -/
theorem collapseScan_subset (ts : List Task) : ∀ (c : Bool) (p : Int) (x : Nat),
    x ∈ collapseScan ts c p → x ∈ ts.map Task.id := by
  induction ts with
  | nil => intro c p x h; simp [collapseScan] at h
  | cons r rs ih =>
    intro c p x h
    simp only [collapseScan] at h
    simp only [List.map_cons, List.mem_cons]
    split at h
    · exact Or.inr (ih _ _ _ h)
    · split at h
      · split at h
        · rcases List.mem_cons.mp h with h | h
          · exact Or.inl h
          · exact Or.inr (ih _ _ _ h)
        · exact Or.inr (ih _ _ _ h)
      · exact Or.inr (ih _ _ _ h)

/-- A row carrying the `Not appear` flag is never hidden by the scan, from
any scan state, provided its id is not reused by another row. -/
theorem collapseScan_notAppear_skip (pre : List Task) (r : Task) (post : List Task)
    (hna : r.notAppear = true) : ∀ (c : Bool) (p : Int),
    r.id ∉ (pre ++ post).map Task.id →
    r.id ∉ collapseScan (pre ++ r :: post) c p := by
  induction pre with
  | nil =>
    intro c p hid h
    simp only [List.nil_append] at hid h
    simp only [collapseScan, hna, if_true] at h
    exact hid (collapseScan_subset post _ _ _ h)
  | cons q pre ih =>
    intro c p hid h
    simp only [List.cons_append, collapseScan] at h
    have hid' : r.id ∉ (pre ++ post).map Task.id := by
      intro hm
      exact hid (by simp only [List.cons_append, List.map_cons, List.mem_cons]; exact Or.inr hm)
    have hne : r.id ≠ q.id := by
      intro he
      exact hid (by simp only [List.cons_append, List.map_cons, List.mem_cons]; exact Or.inl he)
    split at h
    · exact ih _ _ hid' h
    · split at h
      · split at h
        · rcases List.mem_cons.mp h with h | h
          · exact hne h
          · exact ih _ _ hid' h
        · exact ih _ _ hid' h
      · exact ih _ _ hid' h

/-- The minimum is `none` exactly on the empty list. -/
theorem listMinInt_eq_none (l : List Int) : listMinInt l = none ↔ l = [] := by
  cases l with
  | nil => simp [listMinInt]
  | cons x xs =>
    simp only [listMinInt]
    cases listMinInt xs <;> simp

/-- The maximum is `none` exactly on the empty list. -/
theorem listMaxInt_eq_none (l : List Int) : listMaxInt l = none ↔ l = [] := by
  cases l with
  | nil => simp [listMaxInt]
  | cons x xs =>
    simp only [listMaxInt]
    cases listMaxInt xs <;> simp

/-- The minimum is attained and lower-bounds every element. -/
theorem listMinInt_spec (l : List Int) : ∀ m, listMinInt l = some m →
    m ∈ l ∧ ∀ x ∈ l, m ≤ x := by
  induction l with
  | nil => intro m h; simp [listMinInt] at h
  | cons x xs ih =>
    intro m h
    simp only [listMinInt] at h
    cases hxs : listMinInt xs with
    | none =>
      rw [hxs] at h
      cases h
      have hnil : xs = [] := (listMinInt_eq_none xs).mp hxs
      subst hnil
      exact ⟨List.mem_singleton.mpr rfl, by simp⟩
    | some m' =>
      rw [hxs] at h
      cases h
      obtain ⟨hmem, hbd⟩ := ih m' hxs
      constructor
      · rcases le_total x m' with hx | hx
        · simp [min_eq_left hx]
        · simp only [min_eq_right hx, List.mem_cons]
          exact Or.inr hmem
      · intro y hy
        rcases List.mem_cons.mp hy with hy | hy
        · subst hy; exact min_le_left _ _
        · exact le_trans (min_le_right _ _) (hbd y hy)

/-- The maximum is attained and upper-bounds every element. -/
theorem listMaxInt_spec (l : List Int) : ∀ m, listMaxInt l = some m →
    m ∈ l ∧ ∀ x ∈ l, x ≤ m := by
  induction l with
  | nil => intro m h; simp [listMaxInt] at h
  | cons x xs ih =>
    intro m h
    simp only [listMaxInt] at h
    cases hxs : listMaxInt xs with
    | none =>
      rw [hxs] at h
      cases h
      have hnil : xs = [] := (listMaxInt_eq_none xs).mp hxs
      subst hnil
      exact ⟨List.mem_singleton.mpr rfl, by simp⟩
    | some m' =>
      rw [hxs] at h
      cases h
      obtain ⟨hmem, hbd⟩ := ih m' hxs
      constructor
      · rcases le_total x m' with hx | hx
        · simp only [max_eq_right hx, List.mem_cons]
          exact Or.inr hmem
        · simp [max_eq_left hx]
      · intro y hy
        rcases List.mem_cons.mp hy with hy | hy
        · subst hy; exact le_max_left _ _
        · exact le_trans (hbd y hy) (le_max_right _ _)

/-- Negated `List.contains` as non-membership. -/
theorem notContains_iff (l : List Nat) (x : Nat) : (!l.contains x) = true ↔ x ∉ l := by
  rw [Bool.not_eq_true', ← Bool.not_eq_true, List.elem_iff]

/-- The visible regular rows are the rows of the full dataframe that are
regular, on an allowed outline level, and not collapse-hidden. -/
theorem mem_processVisible_fst (df : List Task) (t : Task) :
    t ∈ (processVisible df).1 ↔ t ∈ df ∧ t.durationDays ≠ 0 ∧ VisibleTask df t := by
  simp only [processVisible, List.mem_filter, VisibleTask, notContains_iff,
    List.elem_iff, bne_iff_ne, ne_eq]
  tauto

/-- The visible milestone rows are the rows of the full dataframe that are
milestones, on an allowed outline level, and not collapse-hidden. -/
theorem mem_processVisible_snd (df : List Task) (t : Task) :
    t ∈ (processVisible df).2 ↔ t ∈ df ∧ t.durationDays = 0 ∧ VisibleTask df t := by
  simp only [processVisible, List.mem_filter, VisibleTask, notContains_iff,
    List.elem_iff, beq_iff_eq]
  tauto

/-- A single unparsable token poisons the whole token list. -/
theorem allIntTokens_eq_none (ts : List (List Char)) (tok : List Char)
    (hmem : tok ∈ ts) (hfail : parseIntToken tok = none) :
    allIntTokens ts = none := by
  induction ts with
  | nil => cases hmem
  | cons t ts ih =>
    rcases List.mem_cons.mp hmem with rfl | hmem
    · simp [allIntTokens, hfail]
    · have hrec := ih hmem
      simp only [allIntTokens, hrec]
      cases parseIntToken t <;> rfl

/-- Inserting into the id-sorted list permutes consing. -/
theorem insertById_perm (t : Task) (l : List Task) : List.Perm (insertById t l) (t :: l) := by
  induction l with
  | nil => exact List.Perm.refl _
  | cons u us ih =>
    simp only [insertById]
    split
    · exact List.Perm.refl _
    · exact List.Perm.trans (List.Perm.cons u ih) (List.Perm.swap t u us)

/-- Sorting by id permutes the input. -/
theorem sortById_perm (l : List Task) : List.Perm (sortById l) l := by
  induction l with
  | nil => exact List.Perm.refl _
  | cons t ts ih =>
    exact List.Perm.trans (insertById_perm t (sortById ts)) (List.Perm.cons t ih)

/-- Insertion preserves id-sortedness. -/
theorem insertById_sorted (t : Task) (l : List Task)
    (h : List.Sorted (fun a b : Task => a.id ≤ b.id) l) :
    List.Sorted (fun a b : Task => a.id ≤ b.id) (insertById t l) := by
  induction l with
  | nil => simp [insertById]
  | cons u us ih =>
    rw [List.sorted_cons] at h
    obtain ⟨hu, hus⟩ := h
    simp only [insertById]
    split
    · rename_i hle
      rw [List.sorted_cons]
      refine ⟨?_, (List.sorted_cons).mpr ⟨hu, hus⟩⟩
      intro b hb
      rcases List.mem_cons.mp hb with rfl | hb
      · exact hle
      · exact le_trans hle (hu b hb)
    · rename_i hgt
      rw [List.sorted_cons]
      refine ⟨?_, ih hus⟩
      intro b hb
      rcases List.mem_cons.mp ((insertById_perm t us).mem_iff.mp hb) with rfl | hb
      · exact Nat.le_of_not_le hgt
      · exact hu b hb

/-- Sorting by id yields an id-sorted list. -/
theorem sortById_sorted (l : List Task) :
    List.Sorted (fun a b : Task => a.id ≤ b.id) (sortById l) := by
  induction l with
  | nil => simp [sortById]
  | cons t ts ih => exact insertById_sorted t (sortById ts) ih

/-- A string survives deduplication iff it occurs and was not yet seen. -/
theorem mem_dedupFirstAux (l : List String) : ∀ (seen : List String) (x : String),
    x ∈ dedupFirstAux seen l ↔ x ∈ l ∧ x ∉ seen := by
  induction l with
  | nil => intro seen x; simp [dedupFirstAux]
  | cons s ss ih =>
    intro seen x
    simp only [dedupFirstAux]
    split
    · rename_i hs
      rw [ih]
      simp only [List.mem_cons]
      constructor
      · rintro ⟨hx, hns⟩
        exact ⟨Or.inr hx, hns⟩
      · rintro ⟨hx | hx, hns⟩
        · subst hx; exact absurd hs hns
        · exact ⟨hx, hns⟩
    · rename_i hs
      simp only [List.mem_cons, ih, List.mem_cons]
      constructor
      · rintro (rfl | ⟨hx, hns⟩)
        · exact ⟨Or.inl rfl, hs⟩
        · exact ⟨Or.inr hx, fun hsn => hns (Or.inr hsn)⟩
      · rintro ⟨rfl | hx, hns⟩
        · exact Or.inl rfl
        · by_cases hxs : x = s
          · exact Or.inl hxs
          · exact Or.inr ⟨hx, fun hsn => (hsn.elim hxs hns)⟩

/-- Deduplication keeps each distinct string once. -/
theorem nodup_dedupFirstAux (l : List String) : ∀ (seen : List String),
    (dedupFirstAux seen l).Nodup := by
  induction l with
  | nil => intro seen; simp [dedupFirstAux]
  | cons s ss ih =>
    intro seen
    simp only [dedupFirstAux]
    split
    · exact ih seen
    · refine List.Nodup.cons ?_ (ih (s :: seen))
      intro hmem
      exact ((mem_dedupFirstAux ss (s :: seen) s).mp hmem).2 (List.mem_cons_self s seen)

/-- Deduplication preserves first-appearance order (it is a sublist). -/
theorem dedupFirstAux_sublist (l : List String) : ∀ (seen : List String),
    List.Sublist (dedupFirstAux seen l) l := by
  induction l with
  | nil => intro seen; simp [dedupFirstAux]
  | cons s ss ih =>
    intro seen
    simp only [dedupFirstAux]
    split
    · exact List.Sublist.trans (ih seen) (List.sublist_cons_self s ss)
    · exact List.Sublist.cons₂ s (ih (s :: seen))

/-- The visible regular rows as a single filter over the full dataframe. -/
theorem processVisible_fst_eq (df : List Task) :
    (processVisible df).1
      = df.filter (fun t => decide (VisibleTask df t ∧ t.durationDays ≠ 0)) := by
  simp only [processVisible]
  rw [List.filter_filter, List.filter_filter]
  apply List.filter_congr
  intro t ht
  rw [Bool.eq_iff_iff]
  simp only [Bool.and_eq_true, notContains_iff, List.elem_iff, bne_iff_ne, ne_eq,
    decide_eq_true_eq, VisibleTask]
  tauto

/-- The visible milestone rows as a single filter over the full dataframe. -/
theorem processVisible_snd_eq (df : List Task) :
    (processVisible df).2
      = df.filter (fun t => decide (VisibleTask df t ∧ t.durationDays = 0)) := by
  simp only [processVisible]
  rw [List.filter_filter, List.filter_filter]
  apply List.filter_congr
  intro t ht
  rw [Bool.eq_iff_iff]
  simp only [Bool.and_eq_true, notContains_iff, List.elem_iff, beq_iff_eq,
    decide_eq_true_eq, VisibleTask]
  tauto

/-- A row with a bad date or digitless duration fails to normalise. -/
theorem normalizeRow_eq_none (i : Nat) (r : RawRow)
    (h : r.startDateRaw = none ∨ r.finishDateRaw = none ∨ extractFirstNat r.duration = none) :
    normalizeRow i r = none := by
  rcases h with h | h | h
  · simp [normalizeRow, h]
  · cases hs : r.startDateRaw <;> simp [normalizeRow, hs, h]
  · cases hs : r.startDateRaw <;> cases hf : r.finishDateRaw <;>
      simp [normalizeRow, hs, hf, h]

/-- A successfully normalised row carries the parsed dates, the extracted
duration and the assigned id. -/
theorem normalizeRow_some (i : Nat) (r : RawRow) (t : Task)
    (h : normalizeRow i r = some t) :
    t.id = i ∧ r.startDateRaw = some t.start ∧ r.finishDateRaw = some t.finish
      ∧ extractFirstNat r.duration = some t.durationDays := by
  cases hs : r.startDateRaw with
  | none => rw [normalizeRow_eq_none i r (Or.inl hs)] at h; cases h
  | some s =>
    cases hf : r.finishDateRaw with
    | none => rw [normalizeRow_eq_none i r (Or.inr (Or.inl hf))] at h; cases h
    | some f =>
      cases hd : extractFirstNat r.duration with
      | none => rw [normalizeRow_eq_none i r (Or.inr (Or.inr hd))] at h; cases h
      | some d =>
        simp only [normalizeRow, hs, hf, hd] at h
        injection h with h
        subst h
        exact ⟨rfl, rfl, rfl, rfl⟩

/-- One bad row anywhere makes the whole normalisation fail. -/
theorem normalizeRows_eq_none (rows : List RawRow) (r : RawRow) : ∀ i : Nat, r ∈ rows →
    (r.startDateRaw = none ∨ r.finishDateRaw = none ∨ extractFirstNat r.duration = none) →
    normalizeRows i rows = none := by
  induction rows with
  | nil => intro i hmem; exact absurd hmem (List.not_mem_nil r)
  | cons q rs ih =>
    intro i hmem hbad
    rcases List.mem_cons.mp hmem with rfl | hmem
    · have h0 : normalizeRow i r = none := normalizeRow_eq_none i r hbad
      cases hq : normalizeRows (i + 1) rs <;> simp [normalizeRows, h0, hq]
    · have h1 := ih (i + 1) hmem hbad
      cases hq : normalizeRow i q <;> simp [normalizeRows, h1, hq]

/-- A successful normalisation preserves length and per-row data and
assigns consecutive 1-based ids. -/
theorem normalizeRows_spec (rows : List RawRow) : ∀ (i : Nat) (ts : List Task),
    normalizeRows i rows = some ts →
    ts.map Task.id = List.range' i rows.length
    ∧ List.Forall₂ (fun (r : RawRow) (t : Task) =>
        r.startDateRaw = some t.start ∧ r.finishDateRaw = some t.finish
        ∧ extractFirstNat r.duration = some t.durationDays) rows ts := by
  induction rows with
  | nil =>
    intro i ts h
    simp only [normalizeRows, Option.some.injEq] at h
    subst h
    exact ⟨rfl, List.Forall₂.nil⟩
  | cons r rs ih =>
    intro i ts h
    simp only [normalizeRows] at h
    cases h1 : normalizeRow i r with
    | none =>
      rw [h1] at h
      cases normalizeRows (i + 1) rs <;> cases h
    | some t =>
      rw [h1] at h
      cases h2 : normalizeRows (i + 1) rs with
      | none => rw [h2] at h; cases h
      | some us =>
        rw [h2] at h
        cases h
        obtain ⟨hid, hs, hf, hd⟩ := normalizeRow_some i r t h1
        obtain ⟨hids, hall⟩ := ih (i + 1) us h2
        refine ⟨?_, List.Forall₂.cons ⟨hs, hf, hd⟩ hall⟩
        rw [List.map_cons, hid, hids, List.length_cons]
        rfl

/-- The first digit run is `none` exactly when no character is a digit. -/
theorem firstDigitRun_eq_none (cs : List Char) :
    firstDigitRun cs = none ↔ ∀ c ∈ cs, c.isDigit = false := by
  induction cs with
  | nil => simp [firstDigitRun]
  | cons c cs ih =>
    simp only [firstDigitRun]
    by_cases h : c.isDigit = true
    · simp [h]
    · rw [Bool.not_eq_true] at h
      simp [h, ih]

/-- Duration extraction fails exactly when the string has no digit. -/
theorem extractFirstNat_eq_none (s : String) :
    extractFirstNat s = none ↔ ∀ c ∈ s.toList, c.isDigit = false := by
  rw [extractFirstNat, Option.map_eq_none', firstDigitRun_eq_none]

/-! ### Claims -/

/-- Claim C1: the collapse filter is a single forward pass with state
`(collapsing, parentLevel)`: a `hideDescendants` row sets the state to its
own level and stays visible; while collapsing, a deeper row is hidden and
the collapse continues, and a row at or above the parent level ends the
collapse without being hidden; on levels `[1,2,3,2,1]` with row 2 marked,
exactly row 3 is hidden and row 4 stays visible. -/
theorem collapse_filter_single_pass :
    (∀ (r : Task) (rs : List Task) (c : Bool) (p : Int), r.notAppear = true →
        collapseScan (r :: rs) c p = collapseScan rs true r.outlineLevel)
  ∧ (∀ (r : Task) (rs : List Task) (p : Int), r.notAppear = false → r.outlineLevel > p →
        collapseScan (r :: rs) true p = r.id :: collapseScan rs true p)
  ∧ (∀ (r : Task) (rs : List Task) (p : Int), r.notAppear = false → ¬ r.outlineLevel > p →
        collapseScan (r :: rs) true p = collapseScan rs false (-1))
  ∧ (∀ (r : Task) (rs : List Task) (p : Int), r.notAppear = false →
        collapseScan (r :: rs) false p = collapseScan rs false p)
  ∧ indicesToHide c1Rows = [3]
  ∧ (processVisible c1Rows).1.map Task.id = [1, 2, 4, 5] := by
  refine ⟨?_, ?_, ?_, ?_, by decide, by decide⟩
  · intro r rs c p h; simp [collapseScan, h]
  · intro r rs p h hgt; simp [collapseScan, h, hgt]
  · intro r rs p h hgt; simp [collapseScan, h, hgt]
  · intro r rs p h; simp [collapseScan, h]

/-- Witness for C1 at a concrete marked row and concrete state. -/
theorem collapse_filter_single_pass_witness :
    collapseScan [c1w] false 0 = collapseScan [] true 2 :=
  collapse_filter_single_pass.1 c1w [] false 0 rfl

/-- Claim C10: a `hideDescendants` row is never hidden by the collapse rule,
even inside an already-active collapse span; it resets the parent level to
its own deeper level, so on `c10Rows` (levels 1*,2,3*,4,2 with rows 1 and 3
marked) exactly rows 2 and 4 are hidden and row 5 (level 2, deeper than the
outer parent level 1) is visible again. -/
theorem hide_flag_row_never_hidden :
    (∀ (pre : List Task) (r : Task) (post : List Task) (c : Bool) (p : Int),
        r.notAppear = true → r.id ∉ (pre ++ post).map Task.id →
        r.id ∉ collapseScan (pre ++ r :: post) c p)
  ∧ indicesToHide c10Rows = [2, 4]
  ∧ (processVisible c10Rows).1.map Task.id = [1, 3, 5] := by
  refine ⟨?_, by decide, by decide⟩
  intro pre r post c p hna hid
  exact collapseScan_notAppear_skip pre r post hna c p hid

/-- Witness for C10: the marked row `c10w` is not hidden when scanned in an
active collapse with parent level 1. -/
theorem hide_flag_row_never_hidden_witness :
    (9 : Nat) ∉ collapseScan ([] ++ c10w :: []) true 1 :=
  hide_flag_row_never_hidden.1 [] c10w [] true 1 rfl (by decide)

/-- Counterexample to C2 as stated: on `c2Cex` the only visible task spans
`[10, 20]`, so a domain computed over visible tasks only would be
`[10 - 5, 20 + 30] = [5, 50]`; the chart's x-domain is `[-5, 90]`, computed
from the collapse-hidden row 2 spanning `[0, 60]`. -/
theorem axis_range_visible_only_cex :
    ((processVisible c2Cex).1 ++ (processVisible c2Cex).2).map Task.start = [10]
  ∧ ((processVisible c2Cex).1 ++ (processVisible c2Cex).2).map Task.finish = [20]
  ∧ (create_gantt_chart c2Cex (processVisible c2Cex).1 (processVisible c2Cex).2).xRange
      = some (-5, 90)
  ∧ (create_gantt_chart c2Cex (processVisible c2Cex).1 (processVisible c2Cex).2).xRange
      ≠ some (10 - 5, 20 + 30) := by
  refine ⟨by decide, by decide, by decide, by decide⟩

/-- Claim C2 (amended): the x-axis domain is
`[min(start) - 5 days, max(finish) + 30 days]` where the minimum and maximum
range over ALL tasks of the input (hidden rows included), not over the
visible tasks only; on visible tasks spanning day 0 (2024-01-01) to day 60
(2024-03-01) with no hidden rows the domain is day -5 (2023-12-27) to day 90
(2024-03-31). -/
theorem axis_range_all_tasks :
    (∀ (df dfR dfM : List Task), df ≠ [] →
      ∃ lo hi, (create_gantt_chart df dfR dfM).xRange = some (lo, hi)
        ∧ (∀ t ∈ df, lo ≤ t.start - 5 ∧ t.finish + 30 ≤ hi)
        ∧ (∃ t ∈ df, lo = t.start - 5)
        ∧ (∃ t ∈ df, hi = t.finish + 30))
  ∧ (create_gantt_chart c2Ex (processVisible c2Ex).1 (processVisible c2Ex).2).xRange
      = some (-5, 90) := by
  refine ⟨?_, by decide⟩
  intro df dfR dfM hne
  have hs : df.map Task.start ≠ [] := by simpa using hne
  have hf : df.map Task.finish ≠ [] := by simpa using hne
  obtain ⟨a, ha⟩ : ∃ a, listMinInt (df.map Task.start) = some a := by
    cases h : listMinInt (df.map Task.start) with
    | none => exact absurd ((listMinInt_eq_none _).mp h) hs
    | some a => exact ⟨a, rfl⟩
  obtain ⟨b, hb⟩ : ∃ b, listMaxInt (df.map Task.finish) = some b := by
    cases h : listMaxInt (df.map Task.finish) with
    | none => exact absurd ((listMaxInt_eq_none _).mp h) hf
    | some b => exact ⟨b, rfl⟩
  obtain ⟨hamem, habd⟩ := listMinInt_spec _ _ ha
  obtain ⟨hbmem, hbbd⟩ := listMaxInt_spec _ _ hb
  refine ⟨a - 5, b + 30, ?_, ?_, ?_, ?_⟩
  · simp [create_gantt_chart, xAxisRange, ha, hb]
  · intro t ht
    constructor
    · exact sub_le_sub_right (habd _ (List.mem_map_of_mem Task.start ht)) 5
    · exact add_le_add_right (hbbd _ (List.mem_map_of_mem Task.finish ht)) 30
  · obtain ⟨t, ht, hts⟩ := List.mem_map.mp hamem
    exact ⟨t, ht, by rw [hts]⟩
  · obtain ⟨t, ht, htf⟩ := List.mem_map.mp hbmem
    exact ⟨t, ht, by rw [htf]⟩

/-- Claim C3: every emitted connector joins a visible regular dependent to a
visible regular-or-milestone predecessor; a predecessor id that does not
exist or was removed by collapse/level filtering yields no connector and no
error (on `c3Cex`, ids 99 and 2 are both dropped); milestones never appear
as dependents, since the dependent end is always a visible regular task. -/
theorem dependency_soundness :
    (∀ (df : List Task) (c : Connector),
        c ∈ (create_gantt_chart df (processVisible df).1 (processVisible df).2).connectors →
          (∃ t, t ∈ df ∧ VisibleTask df t ∧ t.durationDays ≠ 0 ∧ t.id = c.toId)
        ∧ (∃ p, p ∈ df ∧ VisibleTask df p ∧ p.id = c.fromId))
  ∧ (create_gantt_chart c3Cex (processVisible c3Cex).1 (processVisible c3Cex).2).connectors
      = [] := by
  refine ⟨?_, by decide⟩
  intro df c hc
  simp only [create_gantt_chart, connectorsOf, List.mem_flatMap] at hc
  obtain ⟨row, hrow, hcrow⟩ := hc
  simp only [connectorsFor, List.mem_filterMap] at hcrow
  obtain ⟨predIdx, _, hg⟩ := hcrow
  obtain ⟨hrdf, hrreg, hrvis⟩ := (mem_processVisible_fst df row).mp hrow
  cases h1 : lookupById (processVisible df).1 predIdx with
  | some p =>
    rw [h1] at hg
    cases hg
    have hp := List.mem_of_find?_eq_some h1
    obtain ⟨hpdf, hpreg, hpvis⟩ := (mem_processVisible_fst df p).mp hp
    exact ⟨⟨row, hrdf, hrvis, hrreg, rfl⟩, ⟨p, hpdf, hpvis, rfl⟩⟩
  | none =>
    rw [h1] at hg
    cases h2 : lookupById (processVisible df).2 predIdx with
    | some p =>
      rw [h2] at hg
      cases hg
      have hp := List.mem_of_find?_eq_some h2
      obtain ⟨hpdf, hpmil, hpvis⟩ := (mem_processVisible_snd df p).mp hp
      exact ⟨⟨row, hrdf, hrvis, hrreg, rfl⟩, ⟨p, hpdf, hpvis, rfl⟩⟩
    | none =>
      rw [h2] at hg
      cases hg

/-- Witness for C3 on `c3wRows`, whose chart contains the single connector
`c3wConn` from task 1 to task 2. -/
theorem dependency_soundness_witness :
    (∃ t, t ∈ c3wRows ∧ VisibleTask c3wRows t ∧ t.durationDays ≠ 0 ∧ t.id = c3wConn.toId)
  ∧ (∃ p, p ∈ c3wRows ∧ VisibleTask c3wRows p ∧ p.id = c3wConn.fromId) :=
  dependency_soundness.1 c3wRows c3wConn (by decide)

/-- Claim C4: `Predecessors` is parsed as a comma-separated integer list
with whitespace trimmed; when every token parses the full list is returned,
and when any token fails the entire list resolves to `[]` (no partial
result, no error), so `"1, abc, 3"` gives `[]` rather than `[1, 3]`. -/
theorem predecessors_parse_spec :
    (∀ (s : String) (vs : List Int),
        allIntTokens ((splitOnComma s.toList).map trimChars) = some vs →
        parse_predecessors (some s) = vs)
  ∧ (∀ (s : String) (tok : List Char),
        tok ∈ (splitOnComma s.toList).map trimChars →
        parseIntToken tok = none →
        parse_predecessors (some s) = [])
  ∧ parse_predecessors (some "1, abc, 3") = []
  ∧ parse_predecessors (some "1, 2,3") = [1, 2, 3]
  ∧ parse_predecessors none = [] := by
  refine ⟨?_, ?_, by decide, by decide, rfl⟩
  · intro s vs h
    simp only [String.toList] at h
    simp [parse_predecessors, h]
  · intro s tok hmem hfail
    have hnone : allIntTokens ((splitOnComma s.toList).map trimChars) = none :=
      allIntTokens_eq_none _ tok hmem hfail
    simp only [String.toList] at hnone
    simp [parse_predecessors, hnone]

/-- Witness for C4: the middle token of `"1, abc, 3"` fails to parse, so the
whole list resolves to `[]`. -/
theorem predecessors_parse_spec_witness :
    parse_predecessors (some "1, abc, 3") = [] :=
  predecessors_parse_spec.2.1 "1, abc, 3" ['a', 'b', 'c'] (by decide) (by decide)

/-- Claim C5: `durationDays == 0` classifies a row as a milestone and
anything else as regular; visible milestones appear exactly as diamond
markers at `(finish, position)` and never as bars, visible regular tasks
appear exactly as bars and never as markers, and when no milestone is
visible no marker trace is emitted at all. -/
theorem milestone_classification :
    (∀ (df : List Task) (t : Task), t ∈ (processVisible df).2 → t.durationDays = 0)
  ∧ (∀ (df : List Task) (t : Task), t ∈ (processVisible df).1 → t.durationDays ≠ 0)
  ∧ (∀ (df : List Task),
      (create_gantt_chart df (processVisible df).1 (processVisible df).2).markerTrace = none
        ↔ (processVisible df).2 = [])
  ∧ (∀ (df : List Task) (ms : List Marker),
      (create_gantt_chart df (processVisible df).1 (processVisible df).2).markerTrace
          = some ms →
      ms = (processVisible df).2.map (fun t =>
        { taskId := t.id, x := t.finish
          pos := yLabelToPos (sortedYLabels (processVisible df).1 (processVisible df).2)
                   (yLabel t) }))
  ∧ (∀ (df : List Task),
      ((create_gantt_chart df (processVisible df).1 (processVisible df).2).bars).map
          BarRect.taskId
        = (processVisible df).1.map Task.id)
  ∧ (∀ (df : List Task) (t : Task), (df.map Task.id).Nodup → t ∈ (processVisible df).2 →
      ∀ b ∈ (create_gantt_chart df (processVisible df).1 (processVisible df).2).bars,
        b.taskId ≠ t.id)
  ∧ (∀ (df : List Task) (t : Task) (ms : List Marker), (df.map Task.id).Nodup →
      t ∈ (processVisible df).1 →
      (create_gantt_chart df (processVisible df).1 (processVisible df).2).markerTrace
          = some ms →
      ∀ m ∈ ms, m.taskId ≠ t.id)
  ∧ extractFirstNat "0 days" = some 0 := by
  refine ⟨?_, ?_, ?_, ?_, ?_, ?_, ?_, by decide⟩
  · intro df t ht
    exact ((mem_processVisible_snd df t).mp ht).2.1
  · intro df t ht
    exact ((mem_processVisible_fst df t).mp ht).2.1
  · intro df
    simp only [create_gantt_chart, markersOf]
    cases (processVisible df).2 <;> simp
  · intro df ms hms
    simp only [create_gantt_chart, markersOf] at hms
    split at hms
    · exact (Option.some.injEq _ _ ▸ hms).symm
    · exact absurd hms (by simp)
  · intro df
    simp [create_gantt_chart, barsOf, List.map_map]
  · intro df t hnd ht b hb
    simp only [create_gantt_chart, barsOf, List.mem_map] at hb
    obtain ⟨u, hu, rfl⟩ := hb
    obtain ⟨hudf, hureg, _⟩ := (mem_processVisible_fst df u).mp hu
    obtain ⟨htdf, htmil, _⟩ := (mem_processVisible_snd df t).mp ht
    intro he
    have hut : u = t := List.inj_on_of_nodup_map hnd hudf htdf he
    exact hureg (hut ▸ htmil)
  · intro df t ms hnd ht hms m hm
    simp only [create_gantt_chart, markersOf] at hms
    split at hms
    · cases hms
      simp only [List.mem_map] at hm
      obtain ⟨u, hu, rfl⟩ := hm
      obtain ⟨hudf, humil, _⟩ := (mem_processVisible_snd df u).mp hu
      obtain ⟨htdf, htreg, _⟩ := (mem_processVisible_fst df t).mp ht
      intro he
      have hut : u = t := List.inj_on_of_nodup_map hnd hudf htdf he
      exact htreg (hut ▸ humil)
    · exact absurd hms (by simp)

/-- Witness for C5 on `c6Rows`: the first bar of the chart does not carry
the id of the visible milestone (task 3). -/
theorem milestone_classification_witness :
    ({ taskId := 1, x0 := 0, x1 := 1, pos := 0, color := "black" } : BarRect).taskId
      ≠ (mkTask 3 "B" 1 false 0 4 4 none).id :=
  milestone_classification.2.2.2.2.2.1 c6Rows (mkTask 3 "B" 1 false 0 4 4 none)
    (by decide) (by decide) _ (by decide)

/-- Witness for the amended C2 on the concrete dataframe `c2Cex`. -/
theorem axis_range_all_tasks_witness :
    ∃ lo hi,
      (create_gantt_chart c2Cex (processVisible c2Cex).1 (processVisible c2Cex).2).xRange
        = some (lo, hi)
      ∧ (∀ t ∈ c2Cex, lo ≤ t.start - 5 ∧ t.finish + 30 ≤ hi)
      ∧ (∃ t ∈ c2Cex, lo = t.start - 5)
      ∧ (∃ t ∈ c2Cex, hi = t.finish + 30) :=
  axis_range_all_tasks.1 c2Cex (processVisible c2Cex).1 (processVisible c2Cex).2 (by decide)

/-- Claim C6: each visible row's label is its name prefixed by two spaces
per hierarchy level below root; the visible rows are ordered by original id
(`sort_index` on the concatenation), positions are assigned 0-based to the
distinct label strings in first-appearance order, rows with identical labels
share one position (on `c6Rows`, rows 1 and 2 both get position 0), and
position 0 is the first visible row's label. -/
theorem row_layout_spec :
    (∀ t : Task, yLabel t = repeatTwoSpace (t.outlineLevel - 1).toNat ++ t.name)
  ∧ (∀ l : List Task, List.Perm (sortById l) l
      ∧ List.Sorted (fun a b : Task => a.id ≤ b.id) (sortById l))
  ∧ (∀ dfR dfM : List Task, (sortedYLabels dfR dfM).Nodup)
  ∧ (∀ dfR dfM : List Task,
      List.Sublist (sortedYLabels dfR dfM) ((sortById (dfR ++ dfM)).map yLabel))
  ∧ (∀ (dfR dfM : List Task) (t : Task), t ∈ dfR ∨ t ∈ dfM →
      yLabel t ∈ sortedYLabels dfR dfM)
  ∧ (∀ (dfR dfM : List Task) (t₀ : Task) (rest : List Task),
      sortById (dfR ++ dfM) = t₀ :: rest →
      yLabelToPos (sortedYLabels dfR dfM) (yLabel t₀) = 0)
  ∧ sortedYLabels (processVisible c6Rows).1 (processVisible c6Rows).2 = ["A", "B"]
  ∧ yLabelToPos (sortedYLabels (processVisible c6Rows).1 (processVisible c6Rows).2)
      (yLabel (mkTask 2 "A" 1 false 1 2 3 none)) = 0
  ∧ yLabelToPos (sortedYLabels (processVisible c6Rows).1 (processVisible c6Rows).2)
      (yLabel (mkTask 3 "B" 1 false 0 4 4 none)) = 1 := by
  refine ⟨fun t => rfl, ?_, ?_, ?_, ?_, ?_, by decide, by decide, by decide⟩
  · intro l
    exact ⟨sortById_perm l, sortById_sorted l⟩
  · intro dfR dfM
    exact nodup_dedupFirstAux _ []
  · intro dfR dfM
    exact dedupFirstAux_sublist _ []
  · intro dfR dfM t ht
    have hmem : t ∈ sortById (dfR ++ dfM) :=
      (sortById_perm (dfR ++ dfM)).mem_iff.mpr (List.mem_append.mpr ht)
    refine (mem_dedupFirstAux _ [] (yLabel t)).mpr ⟨?_, List.not_mem_nil _⟩
    exact List.mem_map_of_mem yLabel hmem
  · intro dfR dfM t₀ rest h
    simp only [sortedYLabels, h, List.map_cons, dedupFirst, dedupFirstAux]
    rw [if_neg (List.not_mem_nil _)]
    exact List.indexOf_cons_self _ _

/-- Witness for C6: by the first-visible-row rule, the label of task 1 (the
head of the id-sorted visible rows of `c6Rows`) has position 0. -/
theorem row_layout_spec_witness :
    yLabelToPos (sortedYLabels (processVisible c6Rows).1 (processVisible c6Rows).2)
      (yLabel (mkTask 1 "A" 1 false 1 0 1 none)) = 0 :=
  row_layout_spec.2.2.2.2.2.1 (processVisible c6Rows).1 (processVisible c6Rows).2
    (mkTask 1 "A" 1 false 1 0 1 none)
    [mkTask 2 "A" 1 false 1 2 3 none, mkTask 3 "B" 1 false 0 4 4 none]
    (by decide)

/-- Claim C7: the aggregate stats are the count of visible regular tasks,
the count of visible milestones, and the project span in days
`max(finish) - min(start)` computed over ALL tasks of the input, hidden
rows included; on `c7Rows` (3 visible regular rows, 1 visible milestone,
and a hidden row finishing at day 200) the stats are `(3, 1, 200)`. -/
theorem stats_spec :
    (∀ df : List Task,
      (statsOf df (processVisible df).1 (processVisible df).2).regularCount
        = (df.filter (fun t => decide (VisibleTask df t ∧ t.durationDays ≠ 0))).length)
  ∧ (∀ df : List Task,
      (statsOf df (processVisible df).1 (processVisible df).2).milestoneCount
        = (df.filter (fun t => decide (VisibleTask df t ∧ t.durationDays = 0))).length)
  ∧ (∀ df : List Task, df ≠ [] →
      ∃ a b, (statsOf df (processVisible df).1 (processVisible df).2).totalDurationDays
          = some (b - a)
        ∧ (∀ t ∈ df, a ≤ t.start ∧ t.finish ≤ b)
        ∧ (∃ t ∈ df, t.start = a) ∧ (∃ t ∈ df, t.finish = b))
  ∧ statsOf c7Rows (processVisible c7Rows).1 (processVisible c7Rows).2
      = { regularCount := 3, milestoneCount := 1, totalDurationDays := some 200 } := by
  refine ⟨?_, ?_, ?_, by decide⟩
  · intro df
    simp only [statsOf]
    rw [processVisible_fst_eq]
  · intro df
    simp only [statsOf]
    rw [processVisible_snd_eq]
  · intro df hne
    have hs : df.map Task.start ≠ [] := by simpa using hne
    have hf : df.map Task.finish ≠ [] := by simpa using hne
    obtain ⟨a, ha⟩ : ∃ a, listMinInt (df.map Task.start) = some a := by
      cases h : listMinInt (df.map Task.start) with
      | none => exact absurd ((listMinInt_eq_none _).mp h) hs
      | some a => exact ⟨a, rfl⟩
    obtain ⟨b, hb⟩ : ∃ b, listMaxInt (df.map Task.finish) = some b := by
      cases h : listMaxInt (df.map Task.finish) with
      | none => exact absurd ((listMaxInt_eq_none _).mp h) hf
      | some b => exact ⟨b, rfl⟩
    obtain ⟨hamem, habd⟩ := listMinInt_spec _ _ ha
    obtain ⟨hbmem, hbbd⟩ := listMaxInt_spec _ _ hb
    refine ⟨a, b, ?_, ?_, ?_, ?_⟩
    · simp [statsOf, ha, hb]
    · intro t ht
      exact ⟨habd _ (List.mem_map_of_mem Task.start ht),
        hbbd _ (List.mem_map_of_mem Task.finish ht)⟩
    · obtain ⟨t, ht, hts⟩ := List.mem_map.mp hamem
      exact ⟨t, ht, hts⟩
    · obtain ⟨t, ht, htf⟩ := List.mem_map.mp hbmem
      exact ⟨t, ht, htf⟩

/-- Witness for C7's span part on `c7Rows`. -/
theorem stats_spec_witness :
    ∃ a b, (statsOf c7Rows (processVisible c7Rows).1 (processVisible c7Rows).2).totalDurationDays
        = some (b - a)
      ∧ (∀ t ∈ c7Rows, a ≤ t.start ∧ t.finish ≤ b)
      ∧ (∃ t ∈ c7Rows, t.start = a) ∧ (∃ t ∈ c7Rows, t.finish = b) :=
  stats_spec.2.2.1 c7Rows (by decide)

/-- Claim C8: an unparsable `Start_Date`/`Finish_Date` or a digitless
`Duration` anywhere makes the whole run abort with the single fatal parse
error — the `Except.error` result carries no chart geometry, so no partial
chart exists; on success `durationDays` is the first integer found in each
row's `Duration` string (and the extraction fails exactly when the string
has no digit). -/
theorem fatal_parse_errors :
    (∀ (rows : List RawRow) (r : RawRow), r ∈ rows →
        r.startDateRaw = none ∨ r.finishDateRaw = none ∨ extractFirstNat r.duration = none →
        runPipeline rows
          = Except.error (FatalError.parseError "Start_Date/Finish_Date/Duration"))
  ∧ (∀ (rows : List RawRow) (ts : List Task), normalize rows = Except.ok ts →
        ts.map Task.id = List.range' 1 rows.length
        ∧ List.Forall₂ (fun (r : RawRow) (t : Task) =>
            r.startDateRaw = some t.start ∧ r.finishDateRaw = some t.finish
            ∧ extractFirstNat r.duration = some t.durationDays) rows ts)
  ∧ (∀ s : String, extractFirstNat s = none ↔ ∀ c ∈ s.toList, c.isDigit = false)
  ∧ extractFirstNat "7 days" = some 7
  ∧ runPipeline [c8Bad]
      = Except.error (FatalError.parseError "Start_Date/Finish_Date/Duration") := by
  refine ⟨?_, ?_, extractFirstNat_eq_none, by decide, rfl⟩
  · intro rows r hmem hbad
    have hn : normalizeRows 1 rows = none := normalizeRows_eq_none rows r 1 hmem hbad
    simp [runPipeline, normalize, hn]
  · intro rows ts h
    simp only [normalize] at h
    cases hn : normalizeRows 1 rows with
    | none => rw [hn] at h; cases h
    | some us =>
      rw [hn] at h
      injection h with h
      subst h
      exact normalizeRows_spec rows 1 _ hn

/-- Witness for C8: the digitless duration cell of `c8Bad` aborts the run. -/
theorem fatal_parse_errors_witness :
    runPipeline [c8Bad]
      = Except.error (FatalError.parseError "Start_Date/Finish_Date/Duration") :=
  fatal_parse_errors.1 [c8Bad] c8Bad (by decide) (by decide)

/-- Claim C9: a row with `finish < start` is not rejected: every visible
regular task always yields a bar with `x0 = start` and `x1 = finish`
regardless of their order, and the concrete run `c9Rows` (start day 50,
finish day 20) completes without a fatal error, emitting the
negative-duration bar `[50, 20]`. -/
theorem negative_duration_bar :
    (∀ (df : List Task) (t : Task), t ∈ (processVisible df).1 →
        ∃ b ∈ (create_gantt_chart df (processVisible df).1 (processVisible df).2).bars,
          b.taskId = t.id ∧ b.x0 = t.start ∧ b.x1 = t.finish)
  ∧ (runPipeline c9Rows).toOption.map (fun p => p.1.bars)
      = some [{ taskId := 1, x0 := 50, x1 := 20, pos := 0, color := "black" }]
  ∧ (20 : Int) < 50 := by
  refine ⟨?_, by decide, by decide⟩
  intro df t ht
  refine ⟨{ taskId := t.id, x0 := t.start, x1 := t.finish
            pos := yLabelToPos (sortedYLabels (processVisible df).1 (processVisible df).2)
                     (yLabel t)
            color := barColor t }, ?_, rfl, rfl, rfl⟩
  exact List.mem_map_of_mem _ ht

/-- Witness for C9 on the processed task of `c9Rows`. -/
theorem negative_duration_bar_witness :
    ∃ b ∈ (create_gantt_chart [c9Task] (processVisible [c9Task]).1
             (processVisible [c9Task]).2).bars,
      b.taskId = c9Task.id ∧ b.x0 = c9Task.start ∧ b.x1 = c9Task.finish :=
  negative_duration_bar.1 [c9Task] c9Task (by decide)

end Gantt
